import Mathlib

/-!
# DS3231 real-time clock tool (`ds3231.c`)

A shallow embedding of the register codec, the clock setter and the date check
of `src/ds3231/ds3231.c`, and the properties proved about them.

Modelling conventions.

* The register block `ds3231_regs_t` is the list of the bytes of the structure
  as compiled, each a natural number below 256.  The members `s00` to `s10`
  take one byte each at the offsets 0 to 16; the member `s1112` has bit-fields
  of type `int16_t`, so it is aligned to an even offset: offset 17 is padding,
  `s1112` takes the offsets 18 and 19, and `sizeof(ds3231_regs_t)` is 20.
  A bit-field of the C structure is a triple
  (byte offset, bit shift, bit width); the bit-fields of a byte are allocated
  from its least significant bit upwards, in the order the structure declares
  them (the layout the GNU compiler uses on the little-endian targets the tool
  is built for, and the layout the register table of the specification gives).
* The members of `struct tm` are C `int`s; they are integers here.  The values
  the program computes with them stay far below the range of `int`.
* Storing an `int` into an unsigned bit-field of width `w` keeps the value
  modulo `2 ^ w`.  The C operators `/` and `%` on `int` truncate towards zero
  (`Int.tdiv`, `Int.tmod`).
* `mktime` belongs to the C library, the time zone and the width of `time_t`
  to the environment.  The environment is a parameter (`TimeZone`): the offset
  of standard time, what daylight saving time adds to it, the instants at which
  daylight saving time is in effect, and the range of `time_t`.  `mktime`
  follows its documentation: the members are read as standard time or as
  daylight saving time as `tm_isdst` asks, the structure is normalised to the
  local time in effect at the instant, and a calendar time outside the range
  of `time_t` gives -1 and leaves the structure as it was.  There are no leap
  seconds.
-/

namespace DS3231

/-! ## Bit-fields of the register block -/

/-- The register block: the bytes of `ds3231_regs_t`, register 0x00 first. -/
abbrev ds3231_regs_t := List Nat

/-- A bit-field of `struct s_ds3231_regs`: the byte it lives in, the position of
its lowest bit in that byte, and its width in bits. -/
structure BitField where
  off : Nat
  shift : Nat
  width : Nat
deriving DecidableEq, Repr

/-- The value of the bits `shift .. shift + width - 1` of a byte. -/
def getBits (byte shift width : Nat) : Nat :=
  byte / 2 ^ shift % 2 ^ width

/-- The byte after the C assignment of the `int` value `v` to the unsigned
bit-field at bits `shift .. shift + width - 1`: `v` is reduced modulo
`2 ^ width`, every other bit of the byte is kept. -/
def setBits (byte shift width : Nat) (v : Int) : Nat :=
  byte / 2 ^ (shift + width) * 2 ^ (shift + width)
    + (v % 2 ^ width).toNat * 2 ^ shift
    + byte % 2 ^ shift

/-- The byte of the block at offset `i`. -/
def byteAt (rtc : ds3231_regs_t) (i : Nat) : Nat :=
  rtc.getD i 0

/-- Read of a bit-field: `rtc.f`. -/
def rd (rtc : ds3231_regs_t) (f : BitField) : Nat :=
  getBits (byteAt rtc f.off) f.shift f.width

/-- Assignment to a bit-field: `rtc.f = v`. -/
def wr (rtc : ds3231_regs_t) (f : BitField) (v : Int) : ds3231_regs_t :=
  rtc.set f.off (setBits (byteAt rtc f.off) f.shift f.width v)

/-- Field `s00.secs_1s`: ones digit of the seconds. -/
def secs_1s : BitField := ⟨0, 0, 4⟩
/-- Field `s00.secs_10s`: tens digit of the seconds. -/
def secs_10s : BitField := ⟨0, 4, 3⟩
/-- Field `s00.mbz_0`. -/
def mbz_0 : BitField := ⟨0, 7, 1⟩
/-- Field `s01.mins_1s`: ones digit of the minutes. -/
def mins_1s : BitField := ⟨1, 0, 4⟩
/-- Field `s01.mins_10s`: tens digit of the minutes. -/
def mins_10s : BitField := ⟨1, 4, 3⟩
/-- Field `s01.mbz_1`. -/
def mbz_1 : BitField := ⟨1, 7, 1⟩
/-- Field `u02.hr24.hour_1s`: ones digit of the hours. -/
def hr24_hour_1s : BitField := ⟨2, 0, 4⟩
/-- Field `u02.hr24.hour_10s`: tens digit of the hours, three bits wide. -/
def hr24_hour_10s : BitField := ⟨2, 4, 3⟩
/-- Field `u02.hr24.mode_1224`: the mode bit of the 24-hour view (bit 7). -/
def hr24_mode_1224 : BitField := ⟨2, 7, 1⟩
/-- Field `u02.hr12.hour_1s`. -/
def hr12_hour_1s : BitField := ⟨2, 0, 4⟩
/-- Field `u02.hr12.hour_10s`. -/
def hr12_hour_10s : BitField := ⟨2, 4, 1⟩
/-- Field `u02.hr12.ampm`. -/
def hr12_ampm : BitField := ⟨2, 5, 1⟩
/-- Field `u02.hr12.mode_1224`. -/
def hr12_mode_1224 : BitField := ⟨2, 6, 1⟩
/-- Field `s03.wkday`: day of the week, 1-7. -/
def wkday : BitField := ⟨3, 0, 3⟩
/-- Field `s03.mbz_2`. -/
def mbz_2 : BitField := ⟨3, 3, 5⟩
/-- Field `s04.day_1s`: ones digit of the day of the month. -/
def day_1s : BitField := ⟨4, 0, 4⟩
/-- Field `s04.day_10s`: tens digit of the day of the month. -/
def day_10s : BitField := ⟨4, 4, 2⟩
/-- Field `s04.mbz_3`. -/
def mbz_3 : BitField := ⟨4, 6, 2⟩
/-- Field `s05.month_1s`: ones digit of the month. -/
def month_1s : BitField := ⟨5, 0, 4⟩
/-- Field `s05.month_10s`: tens digit of the month. -/
def month_10s : BitField := ⟨5, 4, 1⟩
/-- Field `s05.mbz_4`. -/
def mbz_4 : BitField := ⟨5, 5, 2⟩
/-- Field `s05.century`. -/
def century : BitField := ⟨5, 7, 1⟩
/-- Field `s06.year_1s`: ones digit of the year. -/
def year_1s : BitField := ⟨6, 0, 4⟩
/-- Field `s06.year_10s`: tens digit of the year. -/
def year_10s : BitField := ⟨6, 4, 4⟩

/-- The value of `sizeof(ds3231_regs_t)`: 17 one-byte members, one byte of
padding, and the two bytes of `s1112`. -/
def sizeof_regs : Nat := 20

/-- A register block as the program holds it: `sizeof(ds3231_regs_t)` bytes. -/
def IsBlock (rtc : ds3231_regs_t) : Prop :=
  rtc.length = sizeof_regs ∧ ∀ b ∈ rtc, b < 256

instance (rtc : ds3231_regs_t) : Decidable (IsBlock rtc) :=
  inferInstanceAs (Decidable (rtc.length = sizeof_regs ∧ ∀ b ∈ rtc, b < 256))

/-- A list of bytes that holds at least the seven time registers (offsets 0 to
6); every register block is one. -/
def HasTimeRegs (rtc : ds3231_regs_t) : Prop :=
  7 ≤ rtc.length ∧ ∀ b ∈ rtc, b < 256

instance (rtc : ds3231_regs_t) : Decidable (HasTimeRegs rtc) :=
  inferInstanceAs (Decidable (7 ≤ rtc.length ∧ ∀ b ∈ rtc, b < 256))

/-! ## Calendar time: `struct tm` and `mktime` -/

/-- The members of `struct tm` the program and `mktime` use. -/
structure tm where
  tm_sec : Int
  tm_min : Int
  tm_hour : Int
  tm_mday : Int
  tm_mon : Int
  tm_year : Int
  tm_wday : Int
  tm_yday : Int
  tm_isdst : Int
deriving DecidableEq, Repr

/-- The result of `memset(&t1,0,sizeof t1)`. -/
def tm_zero : tm := ⟨0, 0, 0, 0, 0, 0, 0, 0, 0⟩

/-- Gregorian leap year, `y` the full year. -/
def isLeap (y : Int) : Bool :=
  decide (y % 4 = 0 ∧ (y % 100 ≠ 0 ∨ y % 400 = 0))

/-- Length of month `m` (0 = January .. 11 = December) of year `y`. -/
def daysInMonth (y m : Int) : Int :=
  if m = 1 then (if isLeap y then 29 else 28)
  else if m = 3 ∨ m = 5 ∨ m = 8 ∨ m = 10 then 30
  else 31

/-- Carry of the day of the month into month and year, one month a step:
a day below 1 borrows the length of the previous month, a day beyond the end
of the month moves into the next month.  `fuel` bounds the number of steps. -/
def normDays : Nat → Int → Int → Int → Int × Int × Int
  | 0, y, m, d => (y, m, d)
  | fuel + 1, y, m, d =>
    if d < 1 then
      if m = 0 then normDays fuel (y - 1) 11 (d + daysInMonth (y - 1) 11)
      else normDays fuel y (m - 1) (d + daysInMonth y (m - 1))
    else if daysInMonth y m < d then
      if m = 11 then normDays fuel (y + 1) 0 (d - daysInMonth y m)
      else normDays fuel y (m + 1) (d - daysInMonth y m)
    else (y, m, d)

/-- Number of leap years among the years 1 .. y - 1. -/
def leapsBefore (y : Int) : Int :=
  (y - 1) / 4 - (y - 1) / 100 + (y - 1) / 400

/-- Days of year `y` before the first of month `m` (0 .. 11). -/
def daysBeforeMonth (y m : Int) : Int :=
  [0, 31, 59, 90, 120, 151, 181, 212, 243, 273, 304, 334].getD m.toNat 0
    + (if isLeap y ∧ 2 ≤ m then 1 else 0)

/-- Days from 1970-01-01 to day `d` of month `m` (0 .. 11) of year `y`. -/
def dayNumber (y m d : Int) : Int :=
  365 * (y - 1970) + (leapsBefore y - leapsBefore 1970) + daysBeforeMonth y m + (d - 1)

/-- The environment of `mktime`: the local time zone and the range of `time_t`. -/
structure TimeZone where
  /-- Offset of standard time from UTC, in seconds east. -/
  stdoff : Int
  /-- What daylight saving time adds to the offset while it is in effect. -/
  save : Int
  /-- Whether daylight saving time is in effect at an instant, given in seconds
  since the epoch. -/
  inDst : Int → Bool
  /-- The least value of `time_t`. -/
  time_min : Int
  /-- The greatest value of `time_t`. -/
  time_max : Int

/-- Seconds from 1970-01-01 00:00:00 to the calendar time the members `tm_sec`
to `tm_year` name when read on one and the same clock, whatever their ranges:
the month is carried into the year, day, hour, minute and second count as
offsets. -/
def localSeconds (t : tm) : Int :=
  (dayNumber (1900 + (t.tm_year * 12 + t.tm_mon) / 12) ((t.tm_year * 12 + t.tm_mon) % 12) 1
      + (t.tm_mday - 1)) * 86400
    + t.tm_hour * 3600 + t.tm_min * 60 + t.tm_sec

/-- Normalisation of a broken-down time: seconds, minutes and hours are carried
into the day, the month into the year, the day of the month into month and
year; `tm_wday` and `tm_yday` are computed and `tm_isdst` is set to `isdst`. -/
def normalize (t : tm) (isdst : Int) : tm :=
  let tod := t.tm_hour * 3600 + t.tm_min * 60 + t.tm_sec
  let rem := tod % 86400
  let mons := t.tm_year * 12 + t.tm_mon
  let d0 := t.tm_mday + tod / 86400
  let ymd := normDays (d0.natAbs + 1) (1900 + mons / 12) (mons % 12) d0
  let days := dayNumber ymd.1 ymd.2.1 ymd.2.2
  { tm_sec := rem % 60
    tm_min := rem / 60 % 60
    tm_hour := rem / 3600
    tm_mday := ymd.2.2
    tm_mon := ymd.2.1
    tm_year := ymd.1 - 1900
    tm_wday := (days + 4) % 7
    tm_yday := days - dayNumber ymd.1 0 1
    tm_isdst := isdst }

/-- The offset from UTC with which `mktime` reads the members of `t`: that of
daylight saving time when `tm_isdst` is positive, that of standard time when it
is zero, and when it is negative the one of the two in effect at the time. -/
def assumedOffset (z : TimeZone) (t : tm) : Int :=
  if t.tm_isdst > 0 then z.stdoff + z.save
  else if t.tm_isdst = 0 then z.stdoff
  else if z.inDst (localSeconds t - (z.stdoff + z.save)) then z.stdoff + z.save
  else z.stdoff

/-- The calendar time `mktime` computes for `t`, in seconds since the epoch. -/
def timeOf (z : TimeZone) (t : tm) : Int :=
  localSeconds t - assumedOffset z t

/-- The offset from UTC in effect in the zone at the instant `time`. -/
def offsetAt (z : TimeZone) (time : Int) : Int :=
  z.stdoff + (if z.inDst time then z.save else 0)

/-- The C library function `mktime` in the environment `z`.  The members
`tm_sec` to `tm_year` of `t` are taken as local time, whatever their ranges,
read with the offset `tm_isdst` asks for.  When the calendar time cannot be
represented in `time_t` the result is -1 and the structure is left as it was.
Otherwise the result is the calendar time and the structure becomes the local
time in effect at that instant: the members as given, moved by the difference
between the offset in effect and the offset they were read with, normalised,
with `tm_wday`, `tm_yday` and `tm_isdst` set. -/
def mktime (z : TimeZone) (t : tm) : Int × tm :=
  let time := timeOf z t
  if time < z.time_min ∨ z.time_max < time then (-1, t)
  else
    (time,
     normalize { t with tm_sec := t.tm_sec + (offsetAt z time - assumedOffset z t) }
       (if z.inDst time then 1 else 0))

/-! ## The program -/

/-- The set path of `main` (lines 278-292): the local time `t` of the host is stored
into the fields of the block read before. -/
def setRegs (t : tm) (rtc : ds3231_regs_t) : ds3231_regs_t :=
  let yr := t.tm_year
  let rtc := wr rtc century (if yr ≥ 100 then 1 else 0)
  let yr := if rd rtc century ≠ 0 then yr - 100 else yr
  let rtc := wr rtc year_10s (Int.tdiv yr 10)
  let rtc := wr rtc year_1s (Int.tmod yr 10)
  let rtc := wr rtc month_10s (Int.tdiv (t.tm_mon + 1) 10)
  let rtc := wr rtc month_1s (Int.tmod (t.tm_mon + 1) 10)
  let rtc := wr rtc day_10s (Int.tdiv t.tm_mday 10)
  let rtc := wr rtc day_1s (Int.tmod t.tm_mday 10)
  let rtc := wr rtc wkday (t.tm_wday + 1)
  let rtc := wr rtc hr24_hour_10s (Int.tdiv t.tm_hour 10)
  let rtc := wr rtc hr24_hour_1s (Int.tmod t.tm_hour 10)
  let rtc := wr rtc mins_10s (Int.tdiv t.tm_min 10)
  let rtc := wr rtc mins_1s (Int.tmod t.tm_min 10)
  rtc

/-- The message `i2c_wr_rtc` hands to the bus: the register pointer 0x00
followed by a copy of the whole block. -/
def i2c_wr_payload (rtc : ds3231_regs_t) : List Nat :=
  0x00 :: rtc

/-- The decoding of `main` (lines 307-318): the fields of the block into `t1`. -/
def decode (rtc : ds3231_regs_t) : tm :=
  let year : Int := rd rtc year_10s * 10 + rd rtc year_1s
  { tm_zero with
    tm_year := if rd rtc century ≠ 0 then year + 100 else year
    tm_mon := rd rtc month_10s * 10 + rd rtc month_1s - 1
    tm_mday := rd rtc day_10s * 10 + rd rtc day_1s
    tm_hour := rd rtc hr24_hour_10s * 10 + rd rtc hr24_hour_1s
    tm_min := rd rtc mins_10s * 10 + rd rtc mins_1s
    tm_sec := rd rtc secs_10s * 10 + rd rtc secs_1s
    tm_isdst := 0 }

/-- What a run of `main` does that the outside can observe. -/
structure Outcome where
  /-- The exit status. -/
  status : Nat
  /-- The payload of the write transaction, when one was issued. -/
  written : Option (List Nat)
  /-- The calendar value handed to `strftime` and printed on standard output. -/
  printed : Option tm
  /-- The calendar value of the message "Read RTC date is not valid". -/
  rejected : Option tm
  /-- The two numbers of the weekday warning: stored weekday, computed weekday. -/
  warning : Option (Nat × Int)
deriving DecidableEq, Repr

/-- The condition of the `if` at lines 321-324, on the decoded time `t0`. -/
def dateRejected (z : TimeZone) (t0 : tm) : Bool :=
  let r := mktime z t0
  let t1 := r.2
  decide (r.1 = 1
    ∨ t1.tm_year ≠ t0.tm_year ∨ t1.tm_mon ≠ t0.tm_mon
    ∨ t1.tm_mday ≠ t0.tm_mday ∨ t1.tm_hour ≠ t0.tm_hour
    ∨ t1.tm_min ≠ t0.tm_min ∨ t1.tm_sec ≠ t0.tm_sec)

/-- The check of the date the RTC returned (lines 304-340); `written` is the
payload of the write transaction that came before, if any. -/
def checkDate (z : TimeZone) (written : Option (List Nat)) (rtc : ds3231_regs_t) : Outcome :=
  let t0 := decode rtc
  let t1 := (mktime z t0).2
  if dateRejected z t0 then
    { status := 2, written := written, printed := none, rejected := some t0, warning := none }
  else
    { status := 0, written := written, printed := some t1, rejected := none
      warning :=
        if t1.tm_wday ≠ (rd rtc wkday : Int) - 1 then some (rd rtc wkday, t1.tm_wday)
        else none }

/-- The exit after a failed bus transaction (`perror`, `exit(1)`). -/
def ioFailure (written : Option (List Nat)) : Outcome :=
  { status := 1, written := written, printed := none, rejected := none, warning := none }

/-- The function `main` after option parsing and `i2c_init`.  The environment
supplies: `opt_s`; `rd1`, the block of the first read (`none` when the
transaction fails); `now`, the local time of the host; `wrOk`, whether the write
transaction succeeds; `rd2`, the block of the read after the write. -/
def main (z : TimeZone) (opt_s : Bool) (rd1 : Option ds3231_regs_t) (now : tm)
    (wrOk : Bool) (rd2 : Option ds3231_regs_t) : Outcome :=
  match rd1 with
  | none => ioFailure none
  | some rtc =>
    if opt_s then
      let rtc := setRegs now rtc
      let payload := i2c_wr_payload rtc
      if wrOk then
        match rd2 with
        | none => ioFailure (some payload)
        | some rtc => checkDate z (some payload) rtc
      else ioFailure (some payload)
    else checkDate z none rtc

/-- Classification of a block by the date check. -/
inductive Validity where
  | Valid
  | Invalid
deriving DecidableEq, Repr

/-- The classification the date check gives a block: Invalid when the program
exits with status 2 and the "not valid" message, Valid otherwise. -/
def classify (z : TimeZone) (rtc : ds3231_regs_t) : Validity :=
  if dateRejected z (decode rtc) then .Invalid else .Valid

/-! ## Predicates and data used in the statements -/

/-- A broken-down time whose six calendar members are in range and name an
existing day. -/
def validTm (t : tm) : Prop :=
  0 ≤ t.tm_sec ∧ t.tm_sec < 60 ∧ 0 ≤ t.tm_min ∧ t.tm_min < 60
    ∧ 0 ≤ t.tm_hour ∧ t.tm_hour < 24 ∧ 0 ≤ t.tm_mon ∧ t.tm_mon < 12
    ∧ 1 ≤ t.tm_mday ∧ t.tm_mday ≤ daysInMonth (1900 + t.tm_year) t.tm_mon

instance (t : tm) : Decidable (validTm t) :=
  inferInstanceAs (Decidable (0 ≤ t.tm_sec ∧ t.tm_sec < 60 ∧ 0 ≤ t.tm_min ∧ t.tm_min < 60
    ∧ 0 ≤ t.tm_hour ∧ t.tm_hour < 24 ∧ 0 ≤ t.tm_mon ∧ t.tm_mon < 12
    ∧ 1 ≤ t.tm_mday ∧ t.tm_mday ≤ daysInMonth (1900 + t.tm_year) t.tm_mon))

/-- The six members the date check compares are the same in `a` and `b`. -/
def sameFields (a b : tm) : Prop :=
  a.tm_year = b.tm_year ∧ a.tm_mon = b.tm_mon ∧ a.tm_mday = b.tm_mday
    ∧ a.tm_hour = b.tm_hour ∧ a.tm_min = b.tm_min ∧ a.tm_sec = b.tm_sec

instance (a b : tm) : Decidable (sameFields a b) :=
  inferInstanceAs (Decidable (a.tm_year = b.tm_year ∧ a.tm_mon = b.tm_mon
    ∧ a.tm_mday = b.tm_mday ∧ a.tm_hour = b.tm_hour ∧ a.tm_min = b.tm_min
    ∧ a.tm_sec = b.tm_sec))

/-- The calendar time of the host is in the range the registers can hold: a year
from 1900 to 2099, month, day, time of day and weekday in their ranges. -/
def hostTimeInRange (t : tm) : Prop :=
  0 ≤ t.tm_year ∧ t.tm_year < 200 ∧ 0 ≤ t.tm_mon ∧ t.tm_mon < 12
    ∧ 1 ≤ t.tm_mday ∧ t.tm_mday ≤ 31 ∧ 0 ≤ t.tm_hour ∧ t.tm_hour < 24
    ∧ 0 ≤ t.tm_min ∧ t.tm_min < 60 ∧ 0 ≤ t.tm_sec ∧ t.tm_sec < 60
    ∧ 0 ≤ t.tm_wday ∧ t.tm_wday < 7

instance (t : tm) : Decidable (hostTimeInRange t) :=
  inferInstanceAs (Decidable (0 ≤ t.tm_year ∧ t.tm_year < 200 ∧ 0 ≤ t.tm_mon ∧ t.tm_mon < 12
    ∧ 1 ≤ t.tm_mday ∧ t.tm_mday ≤ 31 ∧ 0 ≤ t.tm_hour ∧ t.tm_hour < 24
    ∧ 0 ≤ t.tm_min ∧ t.tm_min < 60 ∧ 0 ≤ t.tm_sec ∧ t.tm_sec < 60
    ∧ 0 ≤ t.tm_wday ∧ t.tm_wday < 7))

/-- The byte that holds the two decimal digits of `n`, the tens in the high
nibble and the ones in the low nibble. -/
def bcd (n : Int) : Nat :=
  (n / 10).toNat * 16 + (n % 10).toNat

/-- The standard time of the zone is less than a day from UTC either way. -/
def IsZoneOffset (z : TimeZone) : Prop :=
  -86400 < z.stdoff ∧ z.stdoff < 86400

instance (z : TimeZone) : Decidable (IsZoneOffset z) :=
  inferInstanceAs (Decidable (-86400 < z.stdoff ∧ z.stdoff < 86400))

/-- The calendar time of `t` can be represented in `time_t`: `mktime` does not
fail on `t`. -/
def representable (z : TimeZone) (t : tm) : Prop :=
  z.time_min ≤ timeOf z t ∧ timeOf z t ≤ z.time_max

instance (z : TimeZone) (t : tm) : Decidable (representable z t) :=
  inferInstanceAs (Decidable (z.time_min ≤ timeOf z t ∧ timeOf z t ≤ z.time_max))

/-- Daylight saving time is not in effect in the zone at the calendar time of
`t`. -/
def standardTimeAt (z : TimeZone) (t : tm) : Prop :=
  z.inDst (timeOf z t) = false

instance (z : TimeZone) (t : tm) : Decidable (standardTimeAt z t) :=
  inferInstanceAs (Decidable (z.inDst (timeOf z t) = false))

/-- UTC with a 64-bit `time_t`. -/
def utc64 : TimeZone :=
  { stdoff := 0, save := 0, inDst := fun _ => false
    time_min := -9223372036854775808, time_max := 9223372036854775807 }

/-- UTC with a 32-bit `time_t`. -/
def utc32 : TimeZone :=
  { stdoff := 0, save := 0, inDst := fun _ => false
    time_min := -2147483648, time_max := 2147483647 }

/-- A zone ten hours east of UTC whose daylight saving time of one hour is in
effect from 1999-10-30 16:00 UTC to 2000-03-25 16:00 UTC (the southern summer
of 1999-2000 in Sydney), with a 64-bit `time_t`. -/
def sydney64 : TimeZone :=
  { stdoff := 36000, save := 3600
    inDst := fun time => decide (941299200 ≤ time ∧ time < 954000000)
    time_min := -9223372036854775808, time_max := 9223372036854775807 }

/-- A zone at the offset of UTC whose daylight saving time of one hour is in
effect from 1923-04-22 02:00 UTC to 1923-09-16 02:00 UTC (the summer of 1923 in
London), with a 64-bit `time_t`. -/
def london64 : TimeZone :=
  { stdoff := 0, save := 3600
    inDst := fun time => decide (-1473631200 ≤ time ∧ time < -1460930400)
    time_min := -9223372036854775808, time_max := 9223372036854775807 }

/-- The value the set path stores as the year after the century test. -/
def setYear (t : tm) (b5 : Nat) : Int :=
  if getBits (setBits b5 7 1 (if t.tm_year ≥ 100 then 1 else 0)) 7 1 ≠ 0
  then t.tm_year - 100 else t.tm_year

/-- Bytes 0 to 6 of the register layout of the data model for a calendar value,
as the register table of the specification gives them: BCD seconds, BCD minutes,
24-hour BCD hours with the mode bit 0, weekday, BCD day, BCD month with the
century flag in bit 7, BCD year. -/
def referenceLayout (t : tm) : List Nat :=
  [bcd t.tm_sec, bcd t.tm_min, bcd t.tm_hour, (t.tm_wday + 1).toNat, bcd t.tm_mday,
   bcd (t.tm_mon + 1) + 128 * (if t.tm_year ≥ 100 then 1 else 0), bcd (t.tm_year % 100)]

/-- A host time: Friday 2023-08-25 12:15:30. -/
def exampleTime : tm :=
  { tm_sec := 30, tm_min := 15, tm_hour := 12, tm_mday := 25, tm_mon := 7, tm_year := 123
    tm_wday := 5, tm_yday := 236, tm_isdst := 0 }

/-- A block as a read of 20 bytes finds the chip after power-on: 00:00:00 on
day 1 of month 1 of year 00, weekday 1, alarms zero, control 0x1C, status 0x88,
aging 0, temperature 0x19 0x40, and as the last byte the seconds register
again. -/
def powerOnBlock : ds3231_regs_t :=
  [0x00, 0x00, 0x00, 0x01, 0x01, 0x01, 0x00, 0, 0, 0, 0, 0, 0, 0, 0x1C, 0x88, 0x00, 0x19, 0x40,
   0x00]

/-- A block whose hours register has bit 7 set and whose spare bits are set:
seconds 0x45, minutes 0x30 with bit 7, hours 0x92, weekday 2 with bits 3-7,
day 0x14 with bits 6-7, month 0x03 with bits 5-6, year 0x21. -/
def spareBitsBlock : ds3231_regs_t :=
  [0x45, 0xB0, 0x92, 0xFA, 0xD4, 0x63, 0x21, 1, 2, 3, 4, 5, 6, 7, 0x1C, 0x88, 0x00, 0x19, 0x40,
   0x45]

/-- The block of the end-to-end scenario: seconds 0x30, minutes 0x15, hours
0x12, weekday 3, day 0x25, month 0x08 with century bit 0, year 0x23, followed
by the bytes `rest` of the offsets 7 and up. -/
def scenarioBlock (rest : List Nat) : ds3231_regs_t :=
  0x30 :: 0x15 :: 0x12 :: 0x03 :: 0x25 :: 0x08 :: 0x23 :: rest

/-- A block that differs from the power-on block in the hours register only. -/
def hoursBlock (hours : Nat) : ds3231_regs_t :=
  [0x00, 0x00, hours, 0x01, 0x01, 0x01, 0x00, 0, 0, 0, 0, 0, 0, 0, 0x1C, 0x88, 0x00, 0x19, 0x40,
   0x00]

/-- A block with the seconds register 0x4A (ones nibble 10) and otherwise the
date and time Saturday 1923-08-25 12:15. -/
def badNibbleBlock : ds3231_regs_t :=
  [0x4A, 0x15, 0x12, 0x07, 0x25, 0x08, 0x23, 0, 0, 0, 0, 0, 0, 0, 0x1C, 0x88, 0x00, 0x19, 0x40,
   0x4A]

/-- A block with the seconds register 0x5A: the digits fold to 60 seconds. -/
def overflowNibbleBlock : ds3231_regs_t :=
  [0x5A, 0x15, 0x12, 0x07, 0x25, 0x08, 0x23, 0, 0, 0, 0, 0, 0, 0, 0x1C, 0x88, 0x00, 0x19, 0x40,
   0x5A]

/-- The block for Thursday 1970-01-01 00:00:01. -/
def epochBlock : ds3231_regs_t :=
  [0x01, 0x00, 0x00, 0x05, 0x01, 0x01, 0x70, 0, 0, 0, 0, 0, 0, 0, 0x1C, 0x88, 0x00, 0x19, 0x40,
   0x01]

/-- A block for the date `day`.`month` of the year with two-digit BCD byte
`year` and century bit `cent`, at 12:15:30; the bytes are given as stored. -/
def dateBlock (cent year month day : Nat) : ds3231_regs_t :=
  [0x30, 0x15, 0x12, 0x01, day, month + 128 * cent, year,
   0, 0, 0, 0, 0, 0, 0, 0x1C, 0x88, 0x00, 0x19, 0x40, 0x30]

/-- The date fields of the block hold, in BCD, day `dd` of month `mm` of the year
`yy` of the century chosen by `c`. -/
def encodesDate (rtc : ds3231_regs_t) (c yy mm dd : Nat) : Prop :=
  rd rtc century = c ∧ rd rtc year_10s = yy / 10 ∧ rd rtc year_1s = yy % 10
    ∧ rd rtc month_10s = mm / 10 ∧ rd rtc month_1s = mm % 10
    ∧ rd rtc day_10s = dd / 10 ∧ rd rtc day_1s = dd % 10

instance (rtc : ds3231_regs_t) (c yy mm dd : Nat) : Decidable (encodesDate rtc c yy mm dd) :=
  inferInstanceAs (Decidable (rd rtc century = c ∧ rd rtc year_10s = yy / 10
    ∧ rd rtc year_1s = yy % 10 ∧ rd rtc month_10s = mm / 10 ∧ rd rtc month_1s = mm % 10
    ∧ rd rtc day_10s = dd / 10 ∧ rd rtc day_1s = dd % 10))

/-- The time-of-day fields of the block hold well-formed BCD digits of a time of day:
hours 00-23, minutes 00-59, seconds 00-59. -/
def wellFormedTime (rtc : ds3231_regs_t) : Prop :=
  rd rtc hr24_hour_10s * 10 + rd rtc hr24_hour_1s < 24 ∧ rd rtc hr24_hour_1s ≤ 9
    ∧ rd rtc mins_10s ≤ 5 ∧ rd rtc mins_1s ≤ 9
    ∧ rd rtc secs_10s ≤ 5 ∧ rd rtc secs_1s ≤ 9

instance (rtc : ds3231_regs_t) : Decidable (wellFormedTime rtc) :=
  inferInstanceAs (Decidable (rd rtc hr24_hour_10s * 10 + rd rtc hr24_hour_1s < 24
    ∧ rd rtc hr24_hour_1s ≤ 9 ∧ rd rtc mins_10s ≤ 5 ∧ rd rtc mins_1s ≤ 9
    ∧ rd rtc secs_10s ≤ 5 ∧ rd rtc secs_1s ≤ 9))

/-! ## Lemmas -/

theorem daysInMonth_ge (y m : Int) : 28 ≤ daysInMonth y m := by
  unfold daysInMonth; split_ifs <;> omega

theorem daysInMonth_le (y m : Int) : daysInMonth y m ≤ 31 := by
  unfold daysInMonth; split_ifs <;> omega

theorem normDays_inRange (n : Nat) : ∀ (y m d : Int), 0 ≤ m → m < 12 →
    ((1 ≤ d ∧ d ≤ daysInMonth y m) ∨ (1 - 28 * (n : Int) ≤ d ∧ d ≤ 28 * (n : Int) + 28)) →
    0 ≤ (normDays n y m d).2.1 ∧ (normDays n y m d).2.1 < 12
      ∧ 1 ≤ (normDays n y m d).2.2
      ∧ (normDays n y m d).2.2 ≤ daysInMonth (normDays n y m d).1 (normDays n y m d).2.1 := by
  induction n with
  | zero =>
    intro y m d h0 h1 h
    have := daysInMonth_ge y m
    simp only [normDays]
    omega
  | succ k ih =>
    intro y m d h0 h1 h
    have hge := daysInMonth_ge y m
    have hle := daysInMonth_le y m
    simp only [normDays]
    by_cases hd : d < 1
    · simp only [hd, if_true]
      by_cases hm : m = 0
      · subst hm
        simp only [if_true]
        have h1 := daysInMonth_ge (y - 1) 11
        have h2 := daysInMonth_le (y - 1) 11
        apply ih <;> omega
      · simp only [hm, if_false]
        have h1 := daysInMonth_ge y (m - 1)
        have h2 := daysInMonth_le y (m - 1)
        apply ih <;> omega
    · simp only [hd, if_false]
      by_cases hb : daysInMonth y m < d
      · simp only [hb, if_true]
        by_cases hm : m = 11
        · subst hm
          simp only [if_true]
          have h1 := daysInMonth_ge (y + 1) 0
          apply ih <;> omega
        · simp only [hm, if_false]
          have h1 := daysInMonth_ge y (m + 1)
          apply ih <;> omega
      · simp only [hb, if_false]
        omega

theorem normDays_fixed (n : Nat) (y m d : Int) (h1 : 1 ≤ d) (h2 : d ≤ daysInMonth y m) :
    normDays (n + 1) y m d = (y, m, d) := by
  simp only [normDays]
  rw [if_neg (by omega), if_neg (by omega)]

theorem normalize_validTm (t : tm) (isdst : Int) : validTm (normalize t isdst) := by
  have h := normDays_inRange ((t.tm_mday + (t.tm_hour * 3600 + t.tm_min * 60 + t.tm_sec) / 86400).natAbs + 1)
    (1900 + (t.tm_year * 12 + t.tm_mon) / 12) ((t.tm_year * 12 + t.tm_mon) % 12)
    (t.tm_mday + (t.tm_hour * 3600 + t.tm_min * 60 + t.tm_sec) / 86400)
    (by omega) (by omega) (by right; omega)
  simp only [validTm, normalize]
  refine ⟨by omega, by omega, by omega, by omega, by omega, by omega, h.1, h.2.1, h.2.2.1, ?_⟩
  have := h.2.2.2
  simpa using this

theorem normalize_fixed (t : tm) (isdst : Int) (h : validTm t) :
    sameFields (normalize t isdst) t := by
  obtain ⟨s0, s1, m0, m1, h0, h1, o0, o1, d0, d1⟩ := h
  have e1 : (t.tm_hour * 3600 + t.tm_min * 60 + t.tm_sec) / 86400 = 0 := by omega
  have e2 : (t.tm_hour * 3600 + t.tm_min * 60 + t.tm_sec) % 86400
      = t.tm_hour * 3600 + t.tm_min * 60 + t.tm_sec := by omega
  have e3 : (t.tm_year * 12 + t.tm_mon) / 12 = t.tm_year := by omega
  have e4 : (t.tm_year * 12 + t.tm_mon) % 12 = t.tm_mon := by omega
  simp only [sameFields, normalize, e1, e2, e3, e4, add_zero]
  rw [normDays_fixed _ _ _ _ d0 d1]
  refine ⟨by omega, rfl, rfl, by omega, by omega, by omega⟩

theorem validTm_of_sameFields (a t : tm) (ha : validTm a) (h : sameFields a t) : validTm t := by
  obtain ⟨e1, e2, e3, e4, e5, e6⟩ := h
  unfold validTm at ha ⊢
  rw [e1, e2, e3, e4, e5, e6] at ha
  exact ha

theorem localSeconds_of_sameFields (a t : tm) (h : sameFields a t) :
    localSeconds a = localSeconds t := by
  obtain ⟨e1, e2, e3, e4, e5, e6⟩ := h
  simp only [localSeconds, e1, e2, e3, e4, e5, e6]

theorem leapsBefore_succ (y : Int) :
    leapsBefore (y + 1) = leapsBefore y + (if isLeap y then 1 else 0) := by
  have a4 : y / 4 = (y - 1) / 4 + (if y % 4 = 0 then 1 else 0) := by split_ifs <;> omega
  have a100 : y / 100 = (y - 1) / 100 + (if y % 100 = 0 then 1 else 0) := by
    split_ifs <;> omega
  have a400 : y / 400 = (y - 1) / 400 + (if y % 400 = 0 then 1 else 0) := by
    split_ifs <;> omega
  have d1 : y % 100 = 0 → y % 4 = 0 := by omega
  have d2 : y % 400 = 0 → y % 100 = 0 := by omega
  unfold leapsBefore isLeap
  simp only [add_sub_cancel_right]
  rw [a4, a100, a400]
  by_cases h4 : y % 4 = 0 <;> by_cases h100 : y % 100 = 0 <;> by_cases h400 : y % 400 = 0 <;>
    simp [h4, h100, h400] <;> omega

theorem dayNumber_nextMonth (y m d : Int) (h0 : 0 ≤ m) (h1 : m < 11) :
    dayNumber y (m + 1) (d - daysInMonth y m) = dayNumber y m d := by
  unfold dayNumber daysBeforeMonth daysInMonth
  interval_cases m <;> by_cases hl : isLeap y = true <;> simp [hl] <;> omega

theorem dayNumber_nextYear (y d : Int) :
    dayNumber (y + 1) 0 (d - daysInMonth y 11) = dayNumber y 11 d := by
  have h := leapsBefore_succ y
  unfold dayNumber daysBeforeMonth daysInMonth
  by_cases hl : isLeap y = true <;> simp [hl] at h ⊢ <;> omega

theorem dayNumber_normDays (n : Nat) : ∀ (y m d : Int), 0 ≤ m → m < 12 →
    dayNumber (normDays n y m d).1 (normDays n y m d).2.1 (normDays n y m d).2.2
      = dayNumber y m d := by
  induction n with
  | zero => intro y m d _ _; rfl
  | succ k ih =>
    intro y m d h0 h1
    simp only [normDays]
    by_cases hd : d < 1
    · simp only [hd, if_true]
      by_cases hm : m = 0
      · subst hm
        simp only [if_true]
        rw [ih _ _ _ (by omega) (by omega)]
        have := dayNumber_nextYear (y - 1) (d + daysInMonth (y - 1) 11)
        simp only [sub_add_cancel, add_sub_cancel_right] at this
        exact this.symm
      · simp only [hm, if_false]
        rw [ih _ _ _ (by omega) (by omega)]
        have := dayNumber_nextMonth y (m - 1) (d + daysInMonth y (m - 1)) (by omega) (by omega)
        simp only [sub_add_cancel, add_sub_cancel_right] at this
        exact this.symm
    · simp only [hd, if_false]
      by_cases hb : daysInMonth y m < d
      · simp only [hb, if_true]
        by_cases hm : m = 11
        · subst hm
          simp only [if_true]
          rw [ih _ _ _ (by omega) (by omega)]
          exact dayNumber_nextYear y d
        · simp only [hm, if_false]
          rw [ih _ _ _ (by omega) (by omega)]
          exact dayNumber_nextMonth y m d h0 (by omega)
      · simp only [hb, if_false]

theorem dayNumber_offset (y m d : Int) : dayNumber y m d = dayNumber y m 1 + (d - 1) := by
  unfold dayNumber
  omega

theorem localSeconds_valid (t : tm) (h : validTm t) :
    localSeconds t = dayNumber (1900 + t.tm_year) t.tm_mon t.tm_mday * 86400
        + (t.tm_hour * 3600 + t.tm_min * 60 + t.tm_sec) := by
  obtain ⟨s0, s1, m0, m1, h0, h1, o0, o1, d0, d1⟩ := h
  have e3 : (t.tm_year * 12 + t.tm_mon) / 12 = t.tm_year := by omega
  have e4 : (t.tm_year * 12 + t.tm_mon) % 12 = t.tm_mon := by omega
  rw [dayNumber_offset, localSeconds, e3, e4]
  omega

/-- Normalisation does not move the instant: the normalised members name the
same number of seconds since 1970-01-01 00:00:00 as the members given. -/
theorem localSeconds_normalize (t : tm) (isdst : Int) :
    localSeconds (normalize t isdst) = localSeconds t := by
  rw [localSeconds_valid _ (normalize_validTm t isdst)]
  simp only [normalize]
  rw [show (1900 : Int) + (_ - 1900) = (normDays
      ((t.tm_mday + (t.tm_hour * 3600 + t.tm_min * 60 + t.tm_sec) / 86400).natAbs + 1)
      (1900 + (t.tm_year * 12 + t.tm_mon) / 12) ((t.tm_year * 12 + t.tm_mon) % 12)
      (t.tm_mday + (t.tm_hour * 3600 + t.tm_min * 60 + t.tm_sec) / 86400)).1 from by ring]
  rw [dayNumber_normDays _ _ _ _ (by omega) (by omega), dayNumber_offset, localSeconds]
  omega

theorem localSeconds_shift (t : tm) (delta : Int) :
    localSeconds { t with tm_sec := t.tm_sec + delta } = localSeconds t + delta := by
  simp only [localSeconds]
  omega

/-- When normalising `t` moved by `delta` seconds gives back the six compared
members of `t`, then `t` is a valid calendar time and `delta` is zero. -/
theorem sameFields_normalize_shift (t : tm) (delta isdst : Int)
    (h : sameFields (normalize { t with tm_sec := t.tm_sec + delta } isdst) t) :
    validTm t ∧ delta = 0 := by
  refine ⟨validTm_of_sameFields _ t (normalize_validTm _ _) h, ?_⟩
  have e := localSeconds_of_sameFields _ _ h
  rw [localSeconds_normalize, localSeconds_shift] at e
  omega

theorem normalize_shift_zero (t : tm) (isdst : Int) (h : validTm t) :
    sameFields (normalize { t with tm_sec := t.tm_sec + 0 } isdst) t := by
  have e : ({ t with tm_sec := t.tm_sec + 0 } : tm) = t := by
    cases t; simp
  rw [e]
  exact normalize_fixed t isdst h

/-! ## The set path, byte by byte -/

theorem setRegs_bytes (t : tm) (b0 b1 b2 b3 b4 b5 b6 : Nat) (rest : List Nat) :
    setRegs t (b0 :: b1 :: b2 :: b3 :: b4 :: b5 :: b6 :: rest) =
      b0
      :: setBits (setBits b1 4 3 (Int.tdiv t.tm_min 10)) 0 4 (Int.tmod t.tm_min 10)
      :: setBits (setBits b2 4 3 (Int.tdiv t.tm_hour 10)) 0 4 (Int.tmod t.tm_hour 10)
      :: setBits b3 0 3 (t.tm_wday + 1)
      :: setBits (setBits b4 4 2 (Int.tdiv t.tm_mday 10)) 0 4 (Int.tmod t.tm_mday 10)
      :: setBits (setBits (setBits b5 7 1 (if t.tm_year ≥ 100 then 1 else 0)) 4 1
            (Int.tdiv (t.tm_mon + 1) 10)) 0 4 (Int.tmod (t.tm_mon + 1) 10)
      :: setBits (setBits b6 4 4 (Int.tdiv (setYear t b5) 10)) 0 4 (Int.tmod (setYear t b5) 10)
      :: rest := by
  rfl

theorem getBits_setBits_same (b s w : Nat) (v : Int) :
    getBits (setBits b s w v) s w = (v % 2 ^ w).toNat := by
  unfold getBits setBits
  have hw : (0 : Int) < 2 ^ w := by positivity
  have h1 : (v % 2 ^ w).toNat < 2 ^ w := by
    have := Int.emod_lt_of_pos v hw
    have h0 := Int.emod_nonneg v (ne_of_gt hw)
    zify
    rw [Int.toNat_of_nonneg h0]
    exact_mod_cast this
  have hs : 0 < 2 ^ s := by positivity
  have e : b / 2 ^ (s + w) * 2 ^ (s + w) + (v % 2 ^ w).toNat * 2 ^ s + b % 2 ^ s
      = b % 2 ^ s + 2 ^ s * ((v % 2 ^ w).toNat + 2 ^ w * (b / 2 ^ (s + w))) := by
    rw [pow_add]; ring
  rw [e, Nat.add_mul_div_left _ _ hs, Nat.div_eq_of_lt (Nat.mod_lt _ hs), zero_add,
    Nat.add_mul_mod_self_left, Nat.mod_eq_of_lt h1]

theorem HasTimeRegs_cons {rtc : ds3231_regs_t} (h : HasTimeRegs rtc) :
    ∃ b0 b1 b2 b3 b4 b5 b6 rest, rtc = b0 :: b1 :: b2 :: b3 :: b4 :: b5 :: b6 :: rest
      ∧ b0 < 256 ∧ b1 < 256 ∧ b2 < 256 ∧ b3 < 256 ∧ b4 < 256 ∧ b5 < 256 ∧ b6 < 256 := by
  obtain ⟨hl, hb⟩ := h
  match rtc, hl, hb with
  | b0 :: b1 :: b2 :: b3 :: b4 :: b5 :: b6 :: rest, hl, hb =>
    refine ⟨b0, b1, b2, b3, b4, b5, b6, rest, rfl, ?_⟩
    simp only [List.mem_cons, forall_eq_or_imp] at hb
    tauto

theorem IsBlock.hasTimeRegs {rtc : ds3231_regs_t} (h : IsBlock rtc) : HasTimeRegs rtc := by
  refine ⟨?_, h.2⟩
  have := h.1
  unfold sizeof_regs at this
  omega

theorem setYear_eq (t : tm) (b5 : Nat) :
    setYear t b5 = if t.tm_year ≥ 100 then t.tm_year - 100 else t.tm_year := by
  unfold setYear
  rw [getBits_setBits_same]
  by_cases h : t.tm_year ≥ 100 <;> simp [h]

theorem byte_two_digits (b : Nat) (w : Nat) (v : Int) (hb : b < 256) (h0 : 0 ≤ v)
    (h1 : v < 10 * 2 ^ w) (hw : w ≤ 4) :
    setBits (setBits b 4 w (Int.tdiv v 10)) 0 4 (Int.tmod v 10)
      = bcd v + 2 ^ (4 + w) * getBits b (4 + w) (8 - (4 + w)) := by
  rw [Int.tdiv_eq_ediv h0 (by norm_num), Int.tmod_eq_emod h0 (by norm_num)]
  unfold getBits setBits bcd
  interval_cases w <;> norm_num at h1 ⊢ <;> omega

theorem setRegs_length (t : tm) (rtc : ds3231_regs_t) :
    (setRegs t rtc).length = rtc.length := by
  simp [setRegs, wr]

theorem setRegs_drop (t : tm) (rtc : ds3231_regs_t) :
    (setRegs t rtc).drop 7 = rtc.drop 7 := by
  simp [setRegs, wr, century, year_10s, year_1s, month_10s, month_1s, day_10s, day_1s, wkday,
    hr24_hour_10s, hr24_hour_1s, mins_10s, mins_1s, List.drop_set_of_lt]

theorem byteAt_drop (rtc : ds3231_regs_t) (n i : Nat) :
    byteAt (rtc.drop n) i = byteAt rtc (n + i) := by
  simp [byteAt, List.getD_eq_getElem?_getD, List.getElem?_drop]

theorem setRegs_byteAt_rest (t : tm) (rtc : ds3231_regs_t) (i : Nat) (h : 7 ≤ i) :
    byteAt (setRegs t rtc) i = byteAt rtc i := by
  obtain ⟨k, rfl⟩ := Nat.exists_eq_add_of_le h
  rw [← byteAt_drop, ← byteAt_drop, setRegs_drop]

/-- What the set path leaves in bytes 1 to 6: the digits of the host time in
the digit fields, the bits of the fields it does not assign as they were. -/
theorem setRegs_layout (t : tm) (prev : ds3231_regs_t) (ht : hostTimeInRange t)
    (hp : HasTimeRegs prev) :
    byteAt (setRegs t prev) 1 = bcd t.tm_min + 128 * rd prev mbz_1
    ∧ byteAt (setRegs t prev) 2 = bcd t.tm_hour + 128 * rd prev hr24_mode_1224
    ∧ byteAt (setRegs t prev) 3 = (t.tm_wday + 1).toNat + 8 * rd prev mbz_2
    ∧ byteAt (setRegs t prev) 4 = bcd t.tm_mday + 64 * rd prev mbz_3
    ∧ byteAt (setRegs t prev) 5
        = bcd (t.tm_mon + 1) + 32 * rd prev mbz_4 + 128 * (if t.tm_year ≥ 100 then 1 else 0)
    ∧ byteAt (setRegs t prev) 6 = bcd (t.tm_year % 100) := by
  obtain ⟨b0, b1, b2, b3, b4, b5, b6, rest, rfl, -, h1, h2, h3, h4, h5, h6⟩ :=
    HasTimeRegs_cons hp
  obtain ⟨y0, y1, o0, o1, d0, d1, k0, k1, m0, m1, -, -, w0, w1⟩ := ht
  rw [setRegs_bytes]
  simp only [byteAt, rd, List.getD_cons_succ, List.getD_cons_zero, mbz_1, hr24_mode_1224, mbz_2,
    mbz_3, mbz_4]
  refine ⟨?_, ?_, ?_, ?_, ?_, ?_⟩
  · rw [byte_two_digits b1 3 _ h1 m0 (by norm_num; omega) (by norm_num)]
    norm_num
  · rw [byte_two_digits b2 3 _ h2 k0 (by norm_num; omega) (by norm_num)]
    norm_num
  · unfold setBits getBits
    norm_num
    omega
  · rw [byte_two_digits b4 2 _ h4 (by omega) (by norm_num; omega) (by norm_num)]
    norm_num
  · have hc : setBits b5 7 1 (if t.tm_year ≥ 100 then 1 else 0) < 256 := by
      unfold setBits; split_ifs <;> norm_num <;> omega
    rw [byte_two_digits _ 1 _ hc (by omega) (by norm_num; omega) (by norm_num)]
    unfold setBits getBits
    split_ifs <;> norm_num <;> omega
  · rw [setYear_eq]
    have hy : (0 : Int) ≤ (if t.tm_year ≥ 100 then t.tm_year - 100 else t.tm_year) := by
      split_ifs <;> omega
    have hy2 : (if t.tm_year ≥ 100 then t.tm_year - 100 else t.tm_year) < 10 * 2 ^ 4 := by
      split_ifs <;> norm_num <;> omega
    rw [byte_two_digits b6 4 _ h6 hy hy2 (by norm_num)]
    have e : (if t.tm_year ≥ 100 then t.tm_year - 100 else t.tm_year) = t.tm_year % 100 := by
      split_ifs <;> omega
    rw [e]
    unfold getBits
    norm_num
    omega

theorem setRegs_byteAt_zero (t : tm) (prev : ds3231_regs_t) (hp : HasTimeRegs prev) :
    byteAt (setRegs t prev) 0 = byteAt prev 0 := by
  obtain ⟨b0, b1, b2, b3, b4, b5, b6, rest, rfl, -⟩ := HasTimeRegs_cons hp
  rw [setRegs_bytes]
  rfl

/-- Decoding the block the set path produces: year, month, day, hour and minute
are those of the host time, the weekday field holds `tm_wday + 1`, and the
seconds are those of the block read before. -/
theorem setRegs_decode (t : tm) (prev : ds3231_regs_t) (ht : hostTimeInRange t)
    (hp : HasTimeRegs prev) :
    (decode (setRegs t prev)).tm_year = t.tm_year
    ∧ (decode (setRegs t prev)).tm_mon = t.tm_mon
    ∧ (decode (setRegs t prev)).tm_mday = t.tm_mday
    ∧ (decode (setRegs t prev)).tm_hour = t.tm_hour
    ∧ (decode (setRegs t prev)).tm_min = t.tm_min
    ∧ (rd (setRegs t prev) wkday : Int) = t.tm_wday + 1
    ∧ (decode (setRegs t prev)).tm_sec = (decode prev).tm_sec := by
  obtain ⟨e1, e2, e3, e4, e5, e6⟩ := setRegs_layout t prev ht hp
  have e0 := setRegs_byteAt_zero t prev hp
  obtain ⟨y0, y1, o0, o1, d0, d1, k0, k1, m0, m1, -, -, w0, w1⟩ := ht
  simp only [decode, rd, century, year_10s, year_1s, month_10s, month_1s, day_10s, day_1s, wkday,
    hr24_hour_10s, hr24_hour_1s, mins_10s, mins_1s, secs_10s, secs_1s, mbz_1, mbz_2, mbz_3, mbz_4,
    hr24_mode_1224, e0, e1, e2, e3, e4, e5, e6]
  unfold getBits bcd
  refine ⟨?_, ?_, ?_, ?_, ?_, ?_, trivial⟩
  · split_ifs <;> norm_num at * <;> omega
  · split_ifs <;> norm_num <;> omega
  · norm_num; omega
  · norm_num; omega
  · norm_num; omega
  · norm_num; omega

theorem daysBeforeMonth_bounds (y m : Int) (h0 : 0 ≤ m) (h1 : m < 12) :
    0 ≤ daysBeforeMonth y m ∧ daysBeforeMonth y m ≤ 335 := by
  unfold daysBeforeMonth
  interval_cases m <;> by_cases hl : isLeap y = true <;> simp [hl]

theorem leapsBefore_ge (y : Int) (h : 1970 ≤ y) : leapsBefore 1970 ≤ leapsBefore y := by
  unfold leapsBefore
  omega

theorem leapsBefore_le (y : Int) (h : y ≤ 1970) : leapsBefore y ≤ leapsBefore 1970 := by
  unfold leapsBefore
  omega

theorem assumedOffset_zero (z : TimeZone) (t : tm) (h0 : t.tm_isdst = 0) :
    assumedOffset z t = z.stdoff := by
  simp [assumedOffset, h0]

theorem timeOf_zero (z : TimeZone) (t : tm) (h0 : t.tm_isdst = 0) :
    timeOf z t = localSeconds t - z.stdoff := by
  simp [timeOf, assumedOffset_zero z t h0]

theorem timeOf_ne_one (z : TimeZone) (t : tm) (hv : validTm t) (h0 : t.tm_isdst = 0)
    (hg : IsZoneOffset z) (hy : t.tm_year ≤ 68 ∨ 71 ≤ t.tm_year) : timeOf z t ≠ 1 := by
  rw [timeOf_zero z t h0, localSeconds_valid t hv]
  obtain ⟨s0, s1, m0, m1, h0, h1, o0, o1, d0, d1⟩ := hv
  obtain ⟨g0, g1⟩ := hg
  have hb := daysBeforeMonth_bounds (1900 + t.tm_year) t.tm_mon o0 o1
  have hd := daysInMonth_le (1900 + t.tm_year) t.tm_mon
  unfold dayNumber
  rcases hy with hy | hy
  · have := leapsBefore_le (1900 + t.tm_year) (by omega)
    omega
  · have := leapsBefore_ge (1900 + t.tm_year) (by omega)
    omega

theorem mktime_fail (z : TimeZone) (t : tm) (h : ¬ representable z t) :
    mktime z t = (-1, t) := by
  have h2 : timeOf z t < z.time_min ∨ z.time_max < timeOf z t := by
    unfold representable at h
    omega
  simp only [mktime, h2, if_true]

theorem mktime_ok (z : TimeZone) (t : tm) (h : representable z t) :
    mktime z t = (timeOf z t,
      normalize { t with tm_sec := t.tm_sec + (offsetAt z (timeOf z t) - assumedOffset z t) }
        (if z.inDst (timeOf z t) then 1 else 0)) := by
  have h2 : ¬ (timeOf z t < z.time_min ∨ z.time_max < timeOf z t) := by
    unfold representable at h
    omega
  simp only [mktime, h2, if_false]

/-- The date check on a time decoded with `tm_isdst` 0: the date is rejected
exactly when `mktime` succeeds and either returns 1, or the members do not name
an existing date and time, or daylight saving time is in effect at the instant
and moves the clock. -/
theorem dateRejected_iff (z : TimeZone) (t : tm) (h0 : t.tm_isdst = 0) :
    dateRejected z t = true ↔
      (representable z t ∧ (timeOf z t = 1 ∨ ¬ validTm t
        ∨ (z.inDst (timeOf z t) = true ∧ z.save ≠ 0))) := by
  by_cases hr : representable z t
  · have hshift : offsetAt z (timeOf z t) - assumedOffset z t
        = if z.inDst (timeOf z t) then z.save else 0 := by
      rw [assumedOffset_zero z t h0]
      unfold offsetAt
      omega
    have key : sameFields (mktime z t).2 t ↔
        (validTm t ∧ ¬ (z.inDst (timeOf z t) = true ∧ z.save ≠ 0)) := by
      rw [mktime_ok z t hr, hshift]
      constructor
      · intro h
        obtain ⟨hv, hd⟩ := sameFields_normalize_shift t _ _ h
        refine ⟨hv, ?_⟩
        rintro ⟨h1, h2⟩
        rw [h1] at hd
        simp at hd
        exact h2 hd
      · rintro ⟨hv, hd⟩
        have e : (if z.inDst (timeOf z t) then z.save else 0) = 0 := by
          by_cases h1 : z.inDst (timeOf z t) = true
          · simp only [h1, if_true]
            by_contra h2
            exact hd ⟨h1, h2⟩
          · simp [h1]
        rw [e]
        exact normalize_shift_zero t _ hv
    have h1 : (mktime z t).1 = timeOf z t := by rw [mktime_ok z t hr]
    have hd : dateRejected z t = true ↔ ((mktime z t).1 = 1 ∨ ¬ sameFields (mktime z t).2 t) := by
      simp only [dateRejected, sameFields, decide_eq_true_eq]
      tauto
    rw [hd, key, h1]
    tauto
  · have hd : dateRejected z t = false := by
      simp only [dateRejected, mktime_fail z t hr]
      simp
    rw [hd]
    simp [hr]

theorem decode_isdst (rtc : ds3231_regs_t) : (decode rtc).tm_isdst = 0 := rfl

theorem checkDate_written (g : TimeZone) (w : Option (List Nat)) (rtc : ds3231_regs_t) :
    (checkDate g w rtc).written = w := by
  simp only [checkDate]
  split_ifs <;> rfl

theorem year_reencode (b5 b6 c a b : Nat) (x z : Int) (hc : c ≤ 1) (ha : a ≤ 9) (hb : b ≤ 9)
    (h6 : b6 < 256) :
    getBits (setBits (setBits (setBits b5 7 1
        (if (100 * (c : Int) + 10 * (a : Int) + (b : Int)) ≥ 100 then 1 else 0)) 4 1 x) 0 4 z) 7 1 = c
    ∧ getBits (setBits (setBits b6 4 4
        (Int.tdiv (if (100 * (c : Int) + 10 * (a : Int) + (b : Int)) ≥ 100
          then 100 * (c : Int) + 10 * (a : Int) + (b : Int) - 100
          else 100 * (c : Int) + 10 * (a : Int) + (b : Int)) 10)) 0 4
        (Int.tmod (if (100 * (c : Int) + 10 * (a : Int) + (b : Int)) ≥ 100
          then 100 * (c : Int) + 10 * (a : Int) + (b : Int) - 100
          else 100 * (c : Int) + 10 * (a : Int) + (b : Int)) 10)) 4 4 = a
    ∧ getBits (setBits (setBits b6 4 4
        (Int.tdiv (if (100 * (c : Int) + 10 * (a : Int) + (b : Int)) ≥ 100
          then 100 * (c : Int) + 10 * (a : Int) + (b : Int) - 100
          else 100 * (c : Int) + 10 * (a : Int) + (b : Int)) 10)) 0 4
        (Int.tmod (if (100 * (c : Int) + 10 * (a : Int) + (b : Int)) ≥ 100
          then 100 * (c : Int) + 10 * (a : Int) + (b : Int) - 100
          else 100 * (c : Int) + 10 * (a : Int) + (b : Int)) 10)) 0 4 = b := by
  have hcc : c = 0 ∨ c = 1 := by omega
  rcases hcc with rfl | rfl
  · have e1 : ¬ ((100 * ((0 : Nat) : Int) + 10 * (a : Int) + (b : Int)) ≥ 100) := by omega
    simp only [e1, if_false]
    rw [Int.tdiv_eq_ediv (by omega) (by norm_num), Int.tmod_eq_emod (by omega) (by norm_num)]
    unfold getBits setBits
    norm_num
    omega
  · have e1 : (100 * ((1 : Nat) : Int) + 10 * (a : Int) + (b : Int)) ≥ 100 := by omega
    simp only [e1, if_true]
    rw [Int.tdiv_eq_ediv (by omega) (by norm_num), Int.tmod_eq_emod (by omega) (by norm_num)]
    unfold getBits setBits
    norm_num
    omega

theorem classify_invalid_iff (g : TimeZone) (rtc : ds3231_regs_t) :
    classify g rtc = .Invalid ↔ dateRejected g (decode rtc) = true := by
  unfold classify
  split_ifs with h <;> simp [h]

theorem classify_valid_iff (g : TimeZone) (rtc : ds3231_regs_t) :
    classify g rtc = .Valid ↔ dateRejected g (decode rtc) = false := by
  unfold classify
  split_ifs with h <;> simp [h]

theorem classify_invalid_of_not_valid (z : TimeZone) (rtc : ds3231_regs_t)
    (h : ¬ validTm (decode rtc)) (hr : representable z (decode rtc)) :
    classify z rtc = .Invalid := by
  rw [classify_invalid_iff, dateRejected_iff z _ (decode_isdst rtc)]
  exact ⟨hr, Or.inr (Or.inl h)⟩

theorem classify_invalid_of_dst (z : TimeZone) (rtc : ds3231_regs_t)
    (hr : representable z (decode rtc)) (hd : z.inDst (timeOf z (decode rtc)) = true)
    (hs : z.save ≠ 0) : classify z rtc = .Invalid := by
  rw [classify_invalid_iff, dateRejected_iff z _ (decode_isdst rtc)]
  exact ⟨hr, Or.inr (Or.inr ⟨hd, hs⟩)⟩

theorem classify_valid_of_valid (z : TimeZone) (rtc : ds3231_regs_t)
    (h : validTm (decode rtc)) (hs : standardTimeAt z (decode rtc))
    (h1 : (mktime z (decode rtc)).1 ≠ 1) : classify z rtc = .Valid := by
  rw [classify_valid_iff]
  cases hd : dateRejected z (decode rtc) with
  | false => rfl
  | true =>
    obtain ⟨hr, h2⟩ := (dateRejected_iff z _ (decode_isdst rtc)).mp hd
    rw [mktime_ok z _ hr] at h1
    unfold standardTimeAt at hs
    rcases h2 with h2 | h2 | h2
    · exact absurd h2 h1
    · exact absurd h h2
    · rw [hs] at h2
      exact absurd h2.1 (by simp)

theorem classify_valid_of_not_representable (z : TimeZone) (rtc : ds3231_regs_t)
    (hr : ¬ representable z (decode rtc)) : classify z rtc = .Valid := by
  rw [classify_valid_iff]
  cases hd : dateRejected z (decode rtc) with
  | false => rfl
  | true => exact absurd ((dateRejected_iff z _ (decode_isdst rtc)).mp hd).1 hr

theorem byteAt_take (rtc : ds3231_regs_t) (n i : Nat) (h : i < n) :
    byteAt (rtc.take n) i = byteAt rtc i := by
  simp [byteAt, List.getD_eq_getElem?_getD, List.getElem?_take, h]

theorem decode_congr (rtc1 rtc2 : ds3231_regs_t) (h1 : rtc1.take 3 = rtc2.take 3)
    (h2 : rtc1.drop 4 = rtc2.drop 4) : decode rtc1 = decode rtc2 := by
  have a0 : byteAt rtc1 0 = byteAt rtc2 0 := by
    rw [← byteAt_take rtc1 3 0 (by omega), ← byteAt_take rtc2 3 0 (by omega), h1]
  have a1 : byteAt rtc1 1 = byteAt rtc2 1 := by
    rw [← byteAt_take rtc1 3 1 (by omega), ← byteAt_take rtc2 3 1 (by omega), h1]
  have a2 : byteAt rtc1 2 = byteAt rtc2 2 := by
    rw [← byteAt_take rtc1 3 2 (by omega), ← byteAt_take rtc2 3 2 (by omega), h1]
  have a4 : byteAt rtc1 4 = byteAt rtc2 4 := by
    have := byteAt_drop rtc1 4 0
    have := byteAt_drop rtc2 4 0
    simp_all
  have a5 : byteAt rtc1 5 = byteAt rtc2 5 := by
    have := byteAt_drop rtc1 4 1
    have := byteAt_drop rtc2 4 1
    simp_all
  have a6 : byteAt rtc1 6 = byteAt rtc2 6 := by
    have := byteAt_drop rtc1 4 2
    have := byteAt_drop rtc2 4 2
    simp_all
  simp only [decode, rd, century, year_10s, year_1s, month_10s, month_1s, day_10s, day_1s,
    hr24_hour_10s, hr24_hour_1s, mins_10s, mins_1s, secs_10s, secs_1s, a0, a1, a2, a4, a5, a6]

theorem mktime_wday_range (z : TimeZone) (rtc : ds3231_regs_t) :
    0 ≤ (mktime z (decode rtc)).2.tm_wday ∧ (mktime z (decode rtc)).2.tm_wday ≤ 6 := by
  by_cases hr : representable z (decode rtc)
  · rw [mktime_ok z _ hr]
    simp only [normalize]
    omega
  · rw [mktime_fail z _ hr]
    simp [decode, tm_zero]

/-! ## Properties of the program -/

/-- C1 (failing input). The host time Friday 2023-08-25 12:15:30 is valid and in
range and the power-on block is a well-formed register block, yet decoding the
block the set path produces from them gives 0 seconds, not the 30 seconds of
the host time: the set path assigns no seconds field, so the seconds register
keeps the byte 0x00 of the block read before. -/
theorem C1_round_trip_loses_seconds :
    hostTimeInRange exampleTime ∧ validTm exampleTime ∧ IsBlock powerOnBlock
      ∧ byteAt (setRegs exampleTime powerOnBlock) 0 = 0x00
      ∧ (decode (setRegs exampleTime powerOnBlock)).tm_sec = 0
      ∧ exampleTime.tm_sec = 30 := by
  decide

/-- C7 (counterexample). For the in-range host time Friday 2023-08-25 12:15:30
and the register block `spareBitsBlock` read before, bytes 0-6 of the block the
set path produces are not the reference layout: the seconds register still
holds 0x45 instead of BCD 30, and the mode bit (bit 7 of the hours register)
is still 1.  They are not determined by the calendar value alone either: from
the power-on block the same host time gives other bytes 0-6. -/
theorem C7_counterexample :
    hostTimeInRange exampleTime ∧ IsBlock spareBitsBlock ∧ IsBlock powerOnBlock
      ∧ referenceLayout exampleTime = [0x30, 0x15, 0x12, 0x06, 0x25, 0x88, 0x23]
      ∧ (setRegs exampleTime spareBitsBlock).take 7 = [0x45, 0x95, 0x92, 0xFE, 0xE5, 0xE8, 0x23]
      ∧ (setRegs exampleTime powerOnBlock).take 7 = [0x00, 0x15, 0x12, 0x06, 0x25, 0x88, 0x23]
      ∧ (setRegs exampleTime spareBitsBlock).take 7 ≠ referenceLayout exampleTime
      ∧ (setRegs exampleTime powerOnBlock).take 7 ≠ referenceLayout exampleTime
      ∧ rd (setRegs exampleTime spareBitsBlock) hr24_mode_1224 = 1
      ∧ (setRegs exampleTime spareBitsBlock).take 7 ≠ (setRegs exampleTime powerOnBlock).take 7 := by
  decide

/-- C7 (amended). For every in-range host time and every block read before
(any list of bytes that holds the seven time registers, so every block of 19
or of 20 bytes), the set path leaves in bytes 1 to 6 the reference layout in
the digit fields and the previous bits in the fields it does not assign: byte 1
is BCD minutes plus the previous bit 7, byte 2 is 24-hour BCD hours plus the
previous bit 7 (the mode bit), byte 3 is the weekday plus the previous bits
3-7, byte 4 is BCD day plus the previous bits 6-7, byte 5 is BCD month with the
century flag in bit 7 plus the previous bits 5-6, byte 6 is BCD year modulo
100. -/
theorem C7_set_path_layout (t : tm) (prev : ds3231_regs_t) (ht : hostTimeInRange t)
    (hp : HasTimeRegs prev) :
    byteAt (setRegs t prev) 1 = bcd t.tm_min + 128 * rd prev mbz_1
    ∧ byteAt (setRegs t prev) 2 = bcd t.tm_hour + 128 * rd prev hr24_mode_1224
    ∧ byteAt (setRegs t prev) 3 = (t.tm_wday + 1).toNat + 8 * rd prev mbz_2
    ∧ byteAt (setRegs t prev) 4 = bcd t.tm_mday + 64 * rd prev mbz_3
    ∧ byteAt (setRegs t prev) 5
        = bcd (t.tm_mon + 1) + 32 * rd prev mbz_4 + 128 * (if t.tm_year ≥ 100 then 1 else 0)
    ∧ byteAt (setRegs t prev) 6 = bcd (t.tm_year % 100) :=
  setRegs_layout t prev ht hp

/-- C7 (witness): the amended statement at the host time Friday 2023-08-25
12:15:30 and the block `spareBitsBlock`. -/
theorem C7_set_path_layout_witness :
    (hostTimeInRange exampleTime ∧ HasTimeRegs spareBitsBlock ∧ IsBlock spareBitsBlock)
    ∧ (byteAt (setRegs exampleTime spareBitsBlock) 1
          = bcd exampleTime.tm_min + 128 * rd spareBitsBlock mbz_1
      ∧ byteAt (setRegs exampleTime spareBitsBlock) 2
          = bcd exampleTime.tm_hour + 128 * rd spareBitsBlock hr24_mode_1224
      ∧ byteAt (setRegs exampleTime spareBitsBlock) 3
          = (exampleTime.tm_wday + 1).toNat + 8 * rd spareBitsBlock mbz_2
      ∧ byteAt (setRegs exampleTime spareBitsBlock) 4
          = bcd exampleTime.tm_mday + 64 * rd spareBitsBlock mbz_3
      ∧ byteAt (setRegs exampleTime spareBitsBlock) 5
          = bcd (exampleTime.tm_mon + 1) + 32 * rd spareBitsBlock mbz_4
            + 128 * (if exampleTime.tm_year ≥ 100 then 1 else 0)
      ∧ byteAt (setRegs exampleTime spareBitsBlock) 6 = bcd (exampleTime.tm_year % 100)) :=
  ⟨⟨by decide, by decide, by decide⟩,
    C7_set_path_layout exampleTime spareBitsBlock (by decide) (by decide)⟩

/-- C8 (counterexample). The block the program holds has
`sizeof(ds3231_regs_t)` = 20 bytes, not 19: for the power-on block and the host
time Friday 2023-08-25 12:15:30 the payload of the write transaction is the
register pointer followed by 20 bytes, 21 bytes in all and not 1 + 19; a list
of 19 bytes is not a block of the program. -/
theorem C8_counterexample :
    IsBlock powerOnBlock ∧ powerOnBlock.length = 20
      ∧ ¬ IsBlock (powerOnBlock.take 19)
      ∧ (main utc64 true (some powerOnBlock) exampleTime true none).written
          = some (0x00 :: setRegs exampleTime powerOnBlock)
      ∧ ((main utc64 true (some powerOnBlock) exampleTime true none).written.map List.length)
          = some 21
      ∧ (i2c_wr_payload (setRegs exampleTime powerOnBlock)).length ≠ 1 + 19 := by
  decide

/-- C8 (amended). For every block read before and every host time, whatever
the outcome of the write and of the read that follows: the payload handed to
the write transaction is the register pointer 0x00 followed by the whole block
the set path produced; that block is as long as the block read before, and
every byte of it from offset 7 on is the byte of the block read before; the
payload is one byte longer than the block, 21 bytes for a block of the
program. -/
theorem C8_set_path_preserves_other_registers (z : TimeZone) (now : tm)
    (rtc : ds3231_regs_t) (wrOk : Bool) (rd2 : Option ds3231_regs_t) :
    (main z true (some rtc) now wrOk rd2).written = some (0x00 :: setRegs now rtc)
    ∧ (setRegs now rtc).length = rtc.length
    ∧ (∀ i, 7 ≤ i → byteAt (setRegs now rtc) i = byteAt rtc i)
    ∧ (setRegs now rtc).drop 7 = rtc.drop 7
    ∧ (i2c_wr_payload (setRegs now rtc)).length = rtc.length + 1
    ∧ (IsBlock rtc → (i2c_wr_payload (setRegs now rtc)).length = 21) := by
  refine ⟨?_, setRegs_length now rtc, ?_, setRegs_drop now rtc, ?_, ?_⟩
  · cases wrOk <;> cases rd2 <;> simp [main, ioFailure, i2c_wr_payload, checkDate_written]
  · intro i hi
    exact setRegs_byteAt_rest now rtc i hi
  · simp [i2c_wr_payload, setRegs_length]
  · intro h
    have := h.1
    unfold sizeof_regs at this
    simp [i2c_wr_payload, setRegs_length, this]

/-- C8 (witness): the amended statement at the block `spareBitsBlock`, the host
time Friday 2023-08-25 12:15:30, a successful write and a failed read after
it. -/
theorem C8_set_path_preserves_other_registers_witness :
    IsBlock spareBitsBlock
    ∧ (main utc64 true (some spareBitsBlock) exampleTime true none).written
          = some (0x00 :: setRegs exampleTime spareBitsBlock)
    ∧ (setRegs exampleTime spareBitsBlock).drop 7 = spareBitsBlock.drop 7
    ∧ (i2c_wr_payload (setRegs exampleTime spareBitsBlock)).length = 21 :=
  have h := C8_set_path_preserves_other_registers utc64 exampleTime spareBitsBlock true none
  ⟨by decide, h.1, h.2.2.2.1, h.2.2.2.2.2 (by decide)⟩

/-- C5. For every block `rtc` whose two year digits are decimal, the decoded
year is 1900 + 100 * century + 10 * tens + ones; and when the set path stores a
host time `t` of that year into any block `prev` (any list of bytes that holds
the seven time registers), the century bit and the two year digits it writes
are those of `rtc`, the stored two-digit year being the year modulo 100. -/
theorem C5_century_boundary (rtc prev : ds3231_regs_t) (t : tm) (hp : HasTimeRegs prev)
    (h10 : rd rtc year_10s ≤ 9) (h1 : rd rtc year_1s ≤ 9)
    (ht : t.tm_year = (decode rtc).tm_year) :
    (decode rtc).tm_year + 1900
        = 1900 + 100 * rd rtc century + 10 * rd rtc year_10s + rd rtc year_1s
    ∧ rd (setRegs t prev) century = rd rtc century
    ∧ rd (setRegs t prev) year_10s = rd rtc year_10s
    ∧ rd (setRegs t prev) year_1s = rd rtc year_1s
    ∧ ((rd (setRegs t prev) year_10s * 10 + rd (setRegs t prev) year_1s : Nat) : Int)
        = ((decode rtc).tm_year + 1900) % 100 := by
  obtain ⟨b0, b1, b2, b3, b4, b5, b6, rest, rfl, -, -, -, -, -, h5, h6⟩ := HasTimeRegs_cons hp
  have hc : rd rtc century ≤ 1 := by
    simp only [rd, century, getBits]; omega
  have hy : (decode rtc).tm_year
      = 100 * rd rtc century + 10 * rd rtc year_10s + rd rtc year_1s := by
    simp only [decode]
    split_ifs <;> omega
  have key := year_reencode b5 b6 (rd rtc century) (rd rtc year_10s) (rd rtc year_1s)
    (Int.tdiv (t.tm_mon + 1) 10) (Int.tmod (t.tm_mon + 1) 10) hc h10 h1 h6
  rw [setRegs_bytes, setYear_eq, ht, hy]
  simp only [rd, byteAt, century, year_10s, year_1s, List.getD_cons_succ, List.getD_cons_zero]
    at key ⊢
  refine ⟨by ring, key.1, key.2.1, key.2.2, ?_⟩
  rw [key.2.1, key.2.2]
  have hc2 : getBits (rtc.getD 5 0) 7 1 ≤ 1 := by unfold getBits; omega
  simp only [rd, byteAt, year_10s, year_1s] at h10 h1
  push_cast
  omega

/-- C5 (witness): the statement at the block with BCD year 99 and century bit 0
(it decodes to 1999, the member tm_year being 99) and at the block with BCD
year 00 and century bit 1 (it decodes to 2000, the member tm_year being 100),
each re-encoded into the power-on block. -/
theorem C5_century_boundary_witness :
    (HasTimeRegs powerOnBlock ∧ IsBlock powerOnBlock
      ∧ rd (dateBlock 0 0x99 0x12 0x31) year_10s ≤ 9
      ∧ rd (dateBlock 0 0x99 0x12 0x31) year_1s ≤ 9
      ∧ ({ tm_zero with tm_year := 99 } : tm).tm_year
          = (decode (dateBlock 0 0x99 0x12 0x31)).tm_year)
    ∧ ((decode (dateBlock 0 0x99 0x12 0x31)).tm_year + 1900
          = 1900 + 100 * rd (dateBlock 0 0x99 0x12 0x31) century
            + 10 * rd (dateBlock 0 0x99 0x12 0x31) year_10s
            + rd (dateBlock 0 0x99 0x12 0x31) year_1s
      ∧ rd (setRegs { tm_zero with tm_year := 99 } powerOnBlock) century
          = rd (dateBlock 0 0x99 0x12 0x31) century
      ∧ rd (setRegs { tm_zero with tm_year := 99 } powerOnBlock) year_10s
          = rd (dateBlock 0 0x99 0x12 0x31) year_10s
      ∧ rd (setRegs { tm_zero with tm_year := 99 } powerOnBlock) year_1s
          = rd (dateBlock 0 0x99 0x12 0x31) year_1s
      ∧ ((rd (setRegs { tm_zero with tm_year := 99 } powerOnBlock) year_10s * 10
            + rd (setRegs { tm_zero with tm_year := 99 } powerOnBlock) year_1s : Nat) : Int)
          = ((decode (dateBlock 0 0x99 0x12 0x31)).tm_year + 1900) % 100)
    ∧ (decode (dateBlock 0 0x99 0x12 0x31)).tm_year = 99
    ∧ (decode (dateBlock 1 0x00 0x01 0x01)).tm_year = 100
    ∧ rd (setRegs { tm_zero with tm_year := 100 } powerOnBlock) century
          = rd (dateBlock 1 0x00 0x01 0x01) century :=
  ⟨⟨by decide, by decide, by decide, by decide, by decide⟩,
    C5_century_boundary (dateBlock 0 0x99 0x12 0x31) powerOnBlock { tm_zero with tm_year := 99 }
      (by decide) (by decide) (by decide) (by decide),
    by decide, by decide,
    (C5_century_boundary (dateBlock 1 0x00 0x01 0x01) powerOnBlock
      { tm_zero with tm_year := 100 } (by decide) (by decide) (by decide) (by decide)).2.1⟩

/-- C3 (counterexample). The hours register 0xA1 has the mode bit (bit 7) and
the PM bit (bit 5) set and the digit 1, and decodes to hour 21, not 13; the
hours register 0x92 (mode bit set, AM, digits 12) decodes to hour 12, not 0.
The block with 0xA1 is accepted with hour 21 (in UTC). -/
theorem C3_counterexample :
    IsBlock (hoursBlock 0xA1)
      ∧ rd (hoursBlock 0xA1) hr24_mode_1224 = 1 ∧ rd (hoursBlock 0xA1) hr12_ampm = 1
      ∧ (decode (hoursBlock 0xA1)).tm_hour = 21
      ∧ rd (hoursBlock 0x92) hr24_mode_1224 = 1 ∧ rd (hoursBlock 0x92) hr12_ampm = 0
      ∧ (decode (hoursBlock 0x92)).tm_hour = 12
      ∧ classify utc64 (hoursBlock 0xA1) = .Valid
      ∧ ((checkDate utc64 none (hoursBlock 0xA1)).printed.map tm.tm_hour) = some 21 := by
  decide

/-- C3 (amended). For every register block, whether the mode bit (bit 7 of the
hours register) is set or clear, the decoded hour is tens * 10 + ones of the
24-hour view of the hours register, the tens being bits 6-4 and the ones bits
3-0; setting the mode bit does not change the decoded hour. -/
theorem C3_hour_decoding (rtc : ds3231_regs_t) (b : Nat) :
    (decode rtc).tm_hour = ((byteAt rtc 2 / 16 % 8 * 10 + byteAt rtc 2 % 16 : Nat) : Int)
    ∧ (decode (rtc.set 2 (b % 128 + 128))).tm_hour = (decode (rtc.set 2 (b % 128))).tm_hour := by
  have h : ∀ r : ds3231_regs_t,
      (decode r).tm_hour = ((byteAt r 2 / 16 % 8 * 10 + byteAt r 2 % 16 : Nat) : Int) := by
    intro r
    simp only [decode, rd, hr24_hour_10s, hr24_hour_1s, getBits]
    norm_num
  refine ⟨h rtc, ?_⟩
  rw [h, h]
  by_cases hl : 2 < rtc.length
  · simp only [byteAt, List.getD_eq_getElem?_getD, List.getElem?_set_self hl, Option.getD_some]
    omega
  · rw [List.set_eq_of_length_le (by omega), List.set_eq_of_length_le (by omega)]

/-- C10 (failing input). The block for Thursday 1970-01-01 00:00:01 is a
well-formed block of an existing date and time, normalisation changes none of
the six compared members, and in UTC `mktime` returns 1: the date check rejects
the block (Invalid, exit status 2). -/
theorem C10_epoch_second_rejected :
    IsBlock epochBlock ∧ validTm (decode epochBlock)
      ∧ sameFields (mktime utc64 (decode epochBlock)).2 (decode epochBlock)
      ∧ (mktime utc64 (decode epochBlock)).1 = 1
      ∧ classify utc64 epochBlock = .Invalid
      ∧ (checkDate utc64 none epochBlock).status = 2 := by
  decide

/-- C6 (counterexample). The block of the scenario has century bit 0 and year
byte 0x23: it decodes to the member tm_year 23, the year 1923, not 2023.  And
it is not Valid in every time zone: where daylight saving time is in effect at
that instant (London, summer of 1923) `mktime` returns the local time 13:15:30
and the block is classified Invalid. -/
theorem C6_counterexample :
    IsBlock (scenarioBlock (List.replicate 13 0))
      ∧ rd (scenarioBlock (List.replicate 13 0)) century = 0
      ∧ (decode (scenarioBlock (List.replicate 13 0))).tm_year + 1900 = 1923
      ∧ (decode (scenarioBlock (List.replicate 13 0))).tm_year + 1900 ≠ 2023
      ∧ IsZoneOffset london64
      ∧ representable london64 (decode (scenarioBlock (List.replicate 13 0)))
      ∧ (mktime london64 (decode (scenarioBlock (List.replicate 13 0)))).2.tm_hour = 13
      ∧ classify london64 (scenarioBlock (List.replicate 13 0)) = .Invalid
      ∧ (checkDate london64 none (scenarioBlock (List.replicate 13 0))).status = 2 := by
  decide

/-- C6 (amended). For the block whose first seven bytes are 0x30, 0x15, 0x12,
0x03, 0x25, 0x08, 0x23 and any bytes after them, decoding gives 1923-08-25
12:15:30 and the stored weekday is 3.  In every environment whose standard time
is less than a day from UTC and whose `mktime` can represent that time: when
daylight saving time is not in effect at that instant in the local time zone,
the block is classified Valid, and the program exits with status 0, prints the
normalised value (a Saturday, the member tm_wday being 6) and warns that the
stored weekday 3 should be 6; when daylight saving time is in effect and moves
the clock, the block is classified Invalid. -/
theorem C6_scenario (z : TimeZone) (rest : List Nat) (hg : IsZoneOffset z)
    (hr : representable z (decode (scenarioBlock rest))) :
    decode (scenarioBlock rest)
        = { tm_sec := 30, tm_min := 15, tm_hour := 12, tm_mday := 25, tm_mon := 7, tm_year := 23
            tm_wday := 0, tm_yday := 0, tm_isdst := 0 }
    ∧ rd (scenarioBlock rest) wkday = 3
    ∧ (standardTimeAt z (decode (scenarioBlock rest)) →
        classify z (scenarioBlock rest) = .Valid
        ∧ checkDate z none (scenarioBlock rest)
          = { status := 0, written := none
              printed := some { tm_sec := 30, tm_min := 15, tm_hour := 12, tm_mday := 25
                                tm_mon := 7, tm_year := 23, tm_wday := 6, tm_yday := 236
                                tm_isdst := 0 }
              rejected := none, warning := some (3, 6) })
    ∧ (z.inDst (timeOf z (decode (scenarioBlock rest))) = true → z.save ≠ 0 →
        classify z (scenarioBlock rest) = .Invalid) := by
  have hd : decode (scenarioBlock rest)
      = { tm_sec := 30, tm_min := 15, tm_hour := 12, tm_mday := 25, tm_mon := 7, tm_year := 23
          tm_wday := 0, tm_yday := 0, tm_isdst := 0 } := by
    simp [decode, rd, byteAt, scenarioBlock, getBits, tm_zero, century, year_10s, year_1s,
      month_10s, month_1s, day_10s, day_1s, hr24_hour_10s, hr24_hour_1s, mins_10s, mins_1s,
      secs_10s, secs_1s]
  have hw : rd (scenarioBlock rest) wkday = 3 := by
    simp [rd, byteAt, scenarioBlock, getBits, wkday]
  have hv : validTm (decode (scenarioBlock rest)) := by rw [hd]; decide
  refine ⟨hd, hw, ?_, classify_invalid_of_dst z _ hr⟩
  intro hs
  have h1 : (mktime z (decode (scenarioBlock rest))).1 ≠ 1 := by
    rw [mktime_ok z _ hr]
    exact timeOf_ne_one z _ hv (decode_isdst _) hg (by rw [hd]; decide)
  have hc := classify_valid_of_valid z _ hv hs h1
  have hrj := (classify_valid_iff z _).mp hc
  have hm : (mktime z (decode (scenarioBlock rest))).2
      = { tm_sec := 30, tm_min := 15, tm_hour := 12, tm_mday := 25, tm_mon := 7, tm_year := 23
          tm_wday := 6, tm_yday := 236, tm_isdst := 0 } := by
    unfold standardTimeAt at hs
    rw [mktime_ok z _ hr]
    simp only [offsetAt, hs, assumedOffset_zero z _ (decode_isdst _)]
    rw [hd]
    simp only [Bool.false_eq_true, if_false, add_zero, sub_self]
    rfl
  refine ⟨hc, ?_⟩
  simp only [checkDate, hrj, hm, hw]
  rfl

/-- C6 (witness): the amended statement in UTC with zero bytes from offset 7
on. -/
theorem C6_scenario_witness :
    (IsZoneOffset utc64 ∧ representable utc64 (decode (scenarioBlock (List.replicate 13 0)))
      ∧ standardTimeAt utc64 (decode (scenarioBlock (List.replicate 13 0))))
    ∧ decode (scenarioBlock (List.replicate 13 0))
          = { tm_sec := 30, tm_min := 15, tm_hour := 12, tm_mday := 25, tm_mon := 7
              tm_year := 23, tm_wday := 0, tm_yday := 0, tm_isdst := 0 }
    ∧ rd (scenarioBlock (List.replicate 13 0)) wkday = 3
    ∧ classify utc64 (scenarioBlock (List.replicate 13 0)) = .Valid
    ∧ checkDate utc64 none (scenarioBlock (List.replicate 13 0))
          = { status := 0, written := none
              printed := some { tm_sec := 30, tm_min := 15, tm_hour := 12, tm_mday := 25
                                tm_mon := 7, tm_year := 23, tm_wday := 6, tm_yday := 236
                                tm_isdst := 0 }
              rejected := none, warning := some (3, 6) } :=
  have h := C6_scenario utc64 (List.replicate 13 0) (by decide) (by decide)
  ⟨⟨by decide, by decide, by decide⟩, h.1, h.2.1, (h.2.2.1 (by decide)).1,
    (h.2.2.1 (by decide)).2⟩

/-- C9 (counterexample). The block encoding 2023-04-31 with stored weekday 1 is
classified Invalid (in UTC); the normalised weekday (1, for Monday 2023-05-01)
differs from the stored weekday minus 1 (0), yet no warning is emitted: the
program exits with status 2 before the weekday is compared. -/
theorem C9_counterexample :
    IsBlock (dateBlock 1 0x23 0x04 0x31)
      ∧ classify utc64 (dateBlock 1 0x23 0x04 0x31) = .Invalid
      ∧ (mktime utc64 (decode (dateBlock 1 0x23 0x04 0x31))).2.tm_wday = 1
      ∧ ((rd (dateBlock 1 0x23 0x04 0x31) wkday : Nat) : Int) - 1 = 0
      ∧ (checkDate utc64 none (dateBlock 1 0x23 0x04 0x31)).warning = none
      ∧ (checkDate utc64 none (dateBlock 1 0x23 0x04 0x31)).status = 2 := by
  decide

/-- C9 (amended). In every environment, for every two register blocks that
differ only in the weekday register (byte 3), the Valid/Invalid classification,
the exit status (0 or 2), the calendar value printed on success and the value
reported on rejection are identical; the warning is emitted exactly when the
block is classified Valid and the weekday `mktime` leaves in the structure
(0-6) differs from the stored weekday minus 1. -/
theorem C9_weekday_warning_only (z : TimeZone) (w : Option (List Nat))
    (rtc1 rtc2 : ds3231_regs_t)
    (h1 : rtc1.take 3 = rtc2.take 3) (h2 : rtc1.drop 4 = rtc2.drop 4) :
    classify z rtc1 = classify z rtc2
    ∧ (checkDate z w rtc1).status = (checkDate z w rtc2).status
    ∧ ((checkDate z w rtc1).status = 0 ∨ (checkDate z w rtc1).status = 2)
    ∧ (checkDate z w rtc1).printed = (checkDate z w rtc2).printed
    ∧ (checkDate z w rtc1).rejected = (checkDate z w rtc2).rejected
    ∧ ((checkDate z w rtc1).warning ≠ none ↔
        (classify z rtc1 = .Valid
          ∧ (mktime z (decode rtc1)).2.tm_wday ≠ (rd rtc1 wkday : Int) - 1))
    ∧ 0 ≤ (mktime z (decode rtc1)).2.tm_wday
    ∧ (mktime z (decode rtc1)).2.tm_wday ≤ 6 := by
  have hd := decode_congr rtc1 rtc2 h1 h2
  have hr := mktime_wday_range z rtc1
  refine ⟨?_, ?_, ?_, ?_, ?_, ?_, hr.1, hr.2⟩
  · simp only [classify, hd]
  · simp only [checkDate, hd]; split_ifs <;> rfl
  · simp only [checkDate]; split_ifs <;> simp
  · simp only [checkDate, hd]; split_ifs <;> rfl
  · simp only [checkDate, hd]; split_ifs <;> rfl
  · simp only [checkDate, classify]
    split_ifs <;> simp_all

/-- C9 (witness): the amended statement in UTC at the scenario block and the
block that differs from it in the weekday register only (7 in place of 3). -/
theorem C9_weekday_warning_only_witness :
    (List.take 3 (scenarioBlock (List.replicate 13 0))
        = List.take 3
            [0x30, 0x15, 0x12, 0x07, 0x25, 0x08, 0x23, 0, 0, 0, 0, 0, 0, 0, 0, 0, 0, 0, 0, 0]
      ∧ List.drop 4 (scenarioBlock (List.replicate 13 0))
        = List.drop 4
            [0x30, 0x15, 0x12, 0x07, 0x25, 0x08, 0x23, 0, 0, 0, 0, 0, 0, 0, 0, 0, 0, 0, 0, 0])
    ∧ classify utc64 (scenarioBlock (List.replicate 13 0))
        = classify utc64
            [0x30, 0x15, 0x12, 0x07, 0x25, 0x08, 0x23, 0, 0, 0, 0, 0, 0, 0, 0, 0, 0, 0, 0, 0]
    ∧ (checkDate utc64 none (scenarioBlock (List.replicate 13 0))).printed
        = (checkDate utc64 none
            [0x30, 0x15, 0x12, 0x07, 0x25, 0x08, 0x23, 0, 0, 0, 0, 0, 0, 0, 0, 0, 0, 0, 0, 0]).printed
    ∧ (checkDate utc64 none (scenarioBlock (List.replicate 13 0))).warning = some (3, 6)
    ∧ (checkDate utc64 none
        [0x30, 0x15, 0x12, 0x07, 0x25, 0x08, 0x23, 0, 0, 0, 0, 0, 0, 0, 0, 0, 0, 0, 0, 0]).warning
        = none :=
  have h := C9_weekday_warning_only utc64 none (scenarioBlock (List.replicate 13 0))
    [0x30, 0x15, 0x12, 0x07, 0x25, 0x08, 0x23, 0, 0, 0, 0, 0, 0, 0, 0, 0, 0, 0, 0, 0]
    (by decide) (by decide)
  ⟨⟨by decide, by decide⟩, h.1, h.2.2.2.1, by decide, by decide⟩

end DS3231
